import Mathlib

/-!
Verification of the Calvero scheduling core: the availability-resolution
engine (`src/lib/availability.ts`), the public availability/booking server
actions (`getAvailableSlots`, `getAvailableDates`, `createBooking`) and the
availability save action (`src/lib/actions/availability.ts`).

Time is modelled as the source observes it: JavaScript `Date` values compared
numerically, i.e. instants in milliseconds since the epoch, embedded as `Int`.
The local timezone is taken as UTC, so `startOfDay` floors to a multiple of
`msPerDay`; `date-fns` `endOfDay` yields 23:59:59.999, i.e. `startOfDay + msPerDay - 1`.
A calendar-day identifier (the `format(date, "yyyy-MM-dd")` string) is embedded
as the day index `t / msPerDay`.

External collaborators (the Sanity document store, the Google Calendar client,
the Clerk identity provider) are modelled as explicit environment inputs: store
documents as lists, fallible calendar calls as `Except`/`Option` results.
The while-loops of the source are embedded with an explicit fuel that bounds
the iteration count; every safety theorem below is proved for all fuel values.
-/

namespace Scheduling

/-! ## Time model -/

def msPerMinute : Int := 60000

def msPerDay : Int := 86400000

/-- `date-fns` `addMinutes`. -/
def addMinutes (t m : Int) : Int := t + m * msPerMinute

/-- `date-fns` `addDays`. -/
def addDays (t d : Int) : Int := t + d * msPerDay

/-- `date-fns` `startOfDay` (timezone modelled as UTC). -/
def startOfDay (t : Int) : Int := msPerDay * Int.fdiv t msPerDay

/-- `date-fns` `endOfDay`: 23:59:59.999 of the same day. -/
def endOfDay (t : Int) : Int := startOfDay t + msPerDay - 1

/-- `format(t, "yyyy-MM-dd")`: the calendar-day identifier, as a day index. -/
def formatDay (t : Int) : Int := Int.fdiv t msPerDay

/-- `date-fns` `isWithinInterval` (closed interval). -/
def isWithinInterval (x lo hi : Int) : Bool := decide (lo ≤ x) && decide (x ≤ hi)

/-! ## Data model (src/lib/availability.ts types) -/

/-- `AvailabilitySlot` of src/lib/availability.ts: one stored availability
window (`_key`, ISO start/end parsed to instants). -/
structure AvailabilitySlot where
  key : String
  startDateTime : Int
  endDateTime : Int
deriving DecidableEq, Repr

/-- `BookingSlot` of src/lib/availability.ts. -/
structure BookingSlot where
  id : String
  startTime : Int
  endTime : Int
deriving DecidableEq, Repr

/-- `BusyTime` of src/lib/availability.ts; `stop` embeds the source field `end`. -/
structure BusyTime where
  start : Int
  stop : Int
deriving DecidableEq, Repr

/-- `TimeSlot` of the booking actions file; `stop` embeds the source field `end`. -/
structure TimeSlot where
  start : Int
  stop : Int
deriving DecidableEq, Repr

/-! ## Shared interval predicates

The conflict lambdas repeated verbatim in the source
(`slot.start < bookingEnd && slot.end > bookingStart`). -/

/-- The booking-conflict test inlined in `computeAvailableSlots`,
`checkDayHasAvailableSlot` and the booking actions. -/
def bookingConflict (s e : Int) (b : BookingSlot) : Bool :=
  decide (s < b.endTime) && decide (e > b.startTime)

/-- The busy-time conflict test inlined in the same functions. -/
def busyConflict (s e : Int) (b : BusyTime) : Bool :=
  decide (s < b.stop) && decide (e > b.start)

/-- The day-relevance filter applied to availability windows, as written in
`computeAvailableSlots`, `computeAvailableDates` and `getAvailableSlots`:
start within the day, or end within the day, or spanning the day. -/
def availabilityOnDay (dayStart dayEnd : Int) (s : AvailabilitySlot) : Bool :=
  isWithinInterval s.startDateTime dayStart dayEnd ||
  isWithinInterval s.endDateTime dayStart dayEnd ||
  (decide (s.startDateTime ≤ dayStart) && decide (s.endDateTime ≥ dayEnd))

/-- Clamp of a window to the day, as written in the source:
`availStart < dayStart ? dayStart : availStart`. -/
def clampStart (dayStart availStart : Int) : Int :=
  if availStart < dayStart then dayStart else availStart

/-- Clamp of a window end to the day: `availEnd > dayEnd ? dayEnd : availEnd`. -/
def clampEnd (dayEnd availEnd : Int) : Int :=
  if availEnd > dayEnd then dayEnd else availEnd

/-! ## Slot generation fuel

The `while (addMinutes(currentStart, d) <= slotEnd)` loops advance
`currentStart` by `d` minutes each iteration, so for a positive duration the
iteration count is bounded by `(slotEnd - currentStart) / (d·60000) + 1`.
That bound is used as the canonical fuel; all safety theorems hold for
every fuel value. -/

def slotFuel (currentStart slotEnd dur : Int) : Nat :=
  ((slotEnd - currentStart).fdiv (dur * msPerMinute)).toNat + 1

/-! ## computeAvailableSlots (src/lib/availability.ts, lines 121-188) -/

/-- The slot-generation loop of `computeAvailableSlots`, with the in-loop
past-slot skip (`currentStart < now`) and booking/busy conflict filters. -/
def computeSlotsLoop (bookings : List BookingSlot) (busyTimes : List BusyTime)
    (slotEnd dur now : Int) : Nat → Int → List TimeSlot
  | 0, _ => []
  | fuel + 1, currentStart =>
    if addMinutes currentStart dur ≤ slotEnd then
      let currentEnd := addMinutes currentStart dur
      if currentStart < now then
        computeSlotsLoop bookings busyTimes slotEnd dur now fuel currentEnd
      else
        let hasBookingConflict := bookings.any (bookingConflict currentStart currentEnd)
        let hasBusyConflict := busyTimes.any (busyConflict currentStart currentEnd)
        if !hasBookingConflict && !hasBusyConflict then
          ⟨currentStart, currentEnd⟩ ::
            computeSlotsLoop bookings busyTimes slotEnd dur now fuel currentEnd
        else
          computeSlotsLoop bookings busyTimes slotEnd dur now fuel currentEnd
    else []

/-- `computeAvailableSlots` of src/lib/availability.ts. The ambient
`new Date()` read by the source is the explicit parameter `now`. -/
def computeAvailableSlots (availability : List AvailabilitySlot)
    (bookings : List BookingSlot) (date : Int) (slotDurationMinutes : Int)
    (busyTimes : List BusyTime) (now : Int) : List TimeSlot :=
  let dayStart := startOfDay date
  let dayEnd := endOfDay date
  let availabilityForDate := availability.filter (availabilityOnDay dayStart dayEnd)
  availabilityForDate.flatMap fun availSlot =>
    let slotStart := clampStart dayStart availSlot.startDateTime
    let slotEnd := clampEnd dayEnd availSlot.endDateTime
    computeSlotsLoop bookings busyTimes slotEnd slotDurationMinutes now
      (slotFuel slotStart slotEnd slotDurationMinutes) slotStart

/-! ## checkDayHasAvailableSlot and computeAvailableDates
(src/lib/availability.ts, lines 55-109 and 203-244) -/

/-- The probe loop of `checkDayHasAvailableSlot`: returns true at the first
slot free of booking and busy conflicts.  No past-slot check appears here. -/
def checkDaySlotLoop (bookings : List BookingSlot) (busyTimes : List BusyTime)
    (slotEnd dur : Int) : Nat → Int → Bool
  | 0, _ => false
  | fuel + 1, currentStart =>
    if addMinutes currentStart dur ≤ slotEnd then
      let currentEnd := addMinutes currentStart dur
      let hasBookingConflict := bookings.any (bookingConflict currentStart currentEnd)
      let hasBusyConflict := busyTimes.any (busyConflict currentStart currentEnd)
      if !hasBookingConflict && !hasBusyConflict then true
      else checkDaySlotLoop bookings busyTimes slotEnd dur fuel currentEnd
    else false

/-- `checkDayHasAvailableSlot` of src/lib/availability.ts. -/
def checkDayHasAvailableSlot (availabilityForDate : List AvailabilitySlot)
    (bookings : List BookingSlot) (dayStart dayEnd : Int)
    (slotDurationMinutes : Int) (busyTimes : List BusyTime) : Bool :=
  availabilityForDate.any fun availSlot =>
    let slotStart := clampStart dayStart availSlot.startDateTime
    let slotEnd := clampEnd dayEnd availSlot.endDateTime
    checkDaySlotLoop bookings busyTimes slotEnd slotDurationMinutes
      (slotFuel slotStart slotEnd slotDurationMinutes) slotStart

/-- Fuel for the day loop of `computeAvailableDates`: one step per calendar
day from `startOfDay startDate` up to `endDate`. -/
def dateFuel (startDate endDate : Int) : Nat :=
  ((endDate - startOfDay startDate).fdiv msPerDay).toNat + 1

/-- The `while (currentDate <= endDate)` loop of `computeAvailableDates`:
skips whole days strictly before `today`, probes the rest. -/
def computeDatesLoop (availability : List AvailabilitySlot)
    (bookings : List BookingSlot) (endDate dur : Int) (busyTimes : List BusyTime)
    (today : Int) : Nat → Int → List Int
  | 0, _ => []
  | fuel + 1, currentDate =>
    if currentDate ≤ endDate then
      if currentDate < today then
        computeDatesLoop availability bookings endDate dur busyTimes today fuel
          (addDays currentDate 1)
      else
        let dayStart := startOfDay currentDate
        let dayEnd := endOfDay currentDate
        let availabilityForDate := availability.filter (availabilityOnDay dayStart dayEnd)
        let rest := computeDatesLoop availability bookings endDate dur busyTimes today fuel
          (addDays currentDate 1)
        if availabilityForDate.length > 0 &&
            checkDayHasAvailableSlot availabilityForDate bookings dayStart dayEnd dur busyTimes then
          formatDay currentDate :: rest
        else rest
    else []

/-- `computeAvailableDates` of src/lib/availability.ts.  The ambient
`new Date()` defining `today` is the explicit parameter `now`; returned
`yyyy-MM-dd` strings are embedded as day indices. -/
def computeAvailableDates (availability : List AvailabilitySlot)
    (bookings : List BookingSlot) (startDate endDate : Int)
    (slotDurationMinutes : Int) (busyTimes : List BusyTime) (now : Int) : List Int :=
  let today := startOfDay now
  computeDatesLoop availability bookings endDate slotDurationMinutes busyTimes today
    (dateFuel startDate endDate) (startOfDay startDate)

/-! ## Booking actions data model (the server-actions file, src/unnamed/part_002) -/

/-- A connected external-calendar account: only the fields the core branches
on (`isDefault`, and whether `accessToken && refreshToken` are present). -/
structure ConnectedAccount where
  isDefault : Bool
  hasTokens : Bool
deriving DecidableEq, Repr

/-- The host record returned by the host-by-slug query: `_id`, slug, name,
email, availability windows and connected accounts. -/
structure Host where
  id : String
  slug : String
  name : String
  email : String
  availability : List AvailabilitySlot
  connectedAccounts : List ConnectedAccount
deriving DecidableEq, Repr

/-- A persisted booking document (§3 of the data model, as written by
`createBooking`). -/
structure Booking where
  id : String
  hostRef : String
  meetingTypeRef : Option String
  startTime : Int
  endTime : Int
  guestName : String
  guestEmail : String
  googleEventId : Option String
  meetLink : Option String
  status : String
deriving DecidableEq, Repr

/-- `BookingData` of the server-actions file. -/
structure BookingData where
  hostSlug : String
  meetingTypeSlug : Option String
  startTime : Int
  endTime : Int
  guestName : String
  guestEmail : String
  notes : Option String
deriving DecidableEq, Repr

/-- Request-scoped environment: the document-store contents and the external
collaborators (§6), modelled as explicit inputs.
`attendeeStatus eventId email` is the Google attendee-status lookup, `none`
standing for a lookup that throws (caught by the source, treated as
still-blocking); `busyFetch` is the outcome of the busy-interval fetch for the
queried range; `quotaExceeded` is `getHostBookingQuotaStatus(slug).isExceeded`;
`meetingTypeLookup hostSlug mtSlug` yields the meeting type id and optional
name; `calendarCreate` is the outcome of the calendar `events.insert` call
(id and conference link may each be absent even on success); `newId` is the
id the store assigns to a created document; `now` is the ambient clock. -/
structure Env where
  hosts : List Host
  bookings : List Booking
  attendeeStatus : String → String → Option String
  busyFetch : Except String (List BusyTime)
  quotaExceeded : String → Bool
  meetingTypeLookup : String → String → Option (String × Option String)
  calendarCreate : Except String (Option String × Option String)
  newId : String
  now : Int

/-- Modelled from the spec: `HOST_BY_SLUG_WITH_TOKENS_QUERY`
(src/sanity/queries/users is not among the sources); §6: "fetch host by
slug ... (with availability + connected accounts)". -/
def hostBySlug (hosts : List Host) (slug : String) : Option Host :=
  hosts.find? fun h => h.slug == slug

/-- Modelled from the spec: `BOOKINGS_IN_RANGE_QUERY`
(src/sanity/queries/bookings is not among the sources); §6: "fetch bookings
overlapping a time range for a host". -/
def bookingsInRange (store : List Booking) (hostId : String)
    (startDate endDate : Int) : List Booking :=
  store.filter fun b =>
    b.hostRef == hostId && decide (b.startTime < endDate) && decide (b.endTime > startDate)

/-- The booking-conflict lambda of the server-actions file applied to a
booking document (`startTime < bookingEnd && endTime > bookingStart`). -/
def bookingDocConflict (s e : Int) (b : Booking) : Bool :=
  decide (s < b.endTime) && decide (e > b.startTime)

/-- `host.connectedAccounts?.find((a) => a.isDefault)`. -/
def defaultAccount (host : Host) : Option ConnectedAccount :=
  host.connectedAccounts.find? fun a => a.isDefault

/-- The attendee-status scan shared by `getAvailableSlots` and
`checkSlotAvailable`: over bookings with a Google event id and a guest email,
collect the ids whose guest attendee status resolves to "declined"; a lookup
failure (`none`) leaves the booking blocking. -/
def declinedIdsFor (env : Env) (bs : List Booking) : List String :=
  (bs.filter fun b => b.googleEventId.isSome && b.guestEmail != "").filterMap fun b =>
    match b.googleEventId with
    | some eid =>
      if env.attendeeStatus eid b.guestEmail == some "declined" then some b.id else none
    | none => none

/-- The declined-id set, gated as in the source on a default account carrying
both tokens. -/
def declinedBookingIds (env : Env) (host : Host) (bs : List Booking) : List String :=
  match defaultAccount host with
  | some acct => if acct.hasTokens then declinedIdsFor env bs else []
  | none => []

/-- The candidate-generation loop of `getAvailableSlots` (server-actions
file): sequential slots of the given duration, no past or conflict check. -/
def generateSlotsLoop (slotEnd dur : Int) : Nat → Int → List TimeSlot
  | 0, _ => []
  | fuel + 1, currentStart =>
    if addMinutes currentStart dur ≤ slotEnd then
      ⟨currentStart, addMinutes currentStart dur⟩ ::
        generateSlotsLoop slotEnd dur fuel (addMinutes currentStart dur)
    else []

/-- `getAvailableSlots` of the server-actions file.  Note: no past-slot
filter appears in this function, and the busy-time fetch is not guarded by
try/catch, so a busy-fetch failure propagates. -/
def getAvailableSlots (env : Env) (hostSlug : String) (date : Int)
    (slotDurationMinutes : Int) : Except String (List TimeSlot) :=
  match hostBySlug env.hosts hostSlug with
  | none => Except.error "Host not found"
  | some host =>
    let dayStart := startOfDay date
    let dayEnd := endOfDay date
    let availabilityForDate := host.availability.filter (availabilityOnDay dayStart dayEnd)
    if availabilityForDate.length == 0 then
      Except.ok []
    else
      let existingBookings := bookingsInRange env.bookings host.id dayStart dayEnd
      let declined := declinedBookingIds env host existingBookings
      let activeBookings := existingBookings.filter fun b => !(declined.contains b.id)
      match env.busyFetch with
      | Except.error e => Except.error e
      | Except.ok busyTimes =>
        let allSlots := availabilityForDate.flatMap fun availSlot =>
          let slotStart := clampStart dayStart availSlot.startDateTime
          let slotEnd := clampEnd dayEnd availSlot.endDateTime
          generateSlotsLoop slotEnd slotDurationMinutes
            (slotFuel slotStart slotEnd slotDurationMinutes) slotStart
        let availableSlots := allSlots.filter fun slot =>
          !(activeBookings.any (bookingDocConflict slot.start slot.stop)) &&
          !(busyTimes.any (busyConflict slot.start slot.stop))
        Except.ok availableSlots

/-- The view of a booking document passed to `computeAvailableDates`. -/
def toBookingSlot (b : Booking) : BookingSlot :=
  { id := b.id, startTime := b.startTime, endTime := b.endTime }

/-- `getAvailableDates` of the server-actions file.  A missing host yields an
empty list (not an error); a busy-fetch failure is caught and degrades to no
busy intervals. -/
def getAvailableDates (env : Env) (hostSlug : String) (startDate endDate : Int)
    (slotDurationMinutes : Int) : Except String (List Int) :=
  match hostBySlug env.hosts hostSlug with
  | none => Except.ok []
  | some host =>
    let existingBookings := bookingsInRange env.bookings host.id startDate endDate
    let busyTimes := match env.busyFetch with
      | Except.ok l => l
      | Except.error _ => []
    Except.ok (computeAvailableDates host.availability (existingBookings.map toBookingSlot)
      startDate endDate slotDurationMinutes busyTimes env.now)

/-- `checkSlotAvailable` of the server-actions file: true when no
non-declined existing booking overlaps the window. -/
def checkSlotAvailable (env : Env) (host : Host) (startTime endTime : Int) : Bool :=
  let existingBookings := bookingsInRange env.bookings host.id startTime endTime
  let overlappingBookings := existingBookings.filter fun b =>
    bookingDocConflict startTime endTime b
  let declined := declinedBookingIds env host overlappingBookings
  !(existingBookings.any fun b =>
    if declined.contains b.id then false
    else bookingDocConflict startTime endTime b)

/-- The meeting-type id resolved by step 3 of `createBooking` (absence is
non-fatal). -/
def resolvedMeetingTypeId (env : Env) (data : BookingData) : Option String :=
  match data.meetingTypeSlug with
  | some s => (env.meetingTypeLookup data.hostSlug s).map Prod.fst
  | none => none

/-- The booking document persisted by step 7 of `createBooking`. -/
def persistedBooking (env : Env) (host : Host) (data : BookingData)
    (googleEventId meetLink : Option String) : Booking :=
  { id := env.newId
    hostRef := host.id
    meetingTypeRef := resolvedMeetingTypeId env data
    startTime := data.startTime
    endTime := data.endTime
    guestName := data.guestName
    guestEmail := data.guestEmail
    googleEventId := googleEventId
    meetLink := meetLink
    status := "confirmed" }

/-- `createBooking` of the server-actions file.  A successful call returns
the new booking id together with the store's booking set after the write; an
error result performs no write. -/
def createBooking (env : Env) (data : BookingData) :
    Except String (String × List Booking) :=
  match hostBySlug env.hosts data.hostSlug with
  | none => Except.error "Host not found"
  | some host =>
    if env.quotaExceeded data.hostSlug then
      Except.error "Host has reached their monthly booking limit"
    else if !(checkSlotAvailable env host data.startTime data.endTime) then
      Except.error "This time slot is no longer available"
    else
      let eventResult :=
        match defaultAccount host with
        | some acct =>
          if acct.hasTokens then
            match env.calendarCreate with
            | Except.ok r => r
            | Except.error _ => (none, none)
          else (none, none)
        | none => (none, none)
      let booking := persistedBooking env host data eventResult.1 eventResult.2
      Except.ok (env.newId, env.bookings ++ [booking])

/-! ## saveAvailability (src/lib/actions/availability.ts) -/

/-- `TimeBlock` of the calendar component types: the availability editor's
block, with `stop` embedding the source field `end`. -/
structure TimeBlock where
  start : Int
  stop : Int
deriving DecidableEq, Repr

/-- The saved-block shape returned by `saveAvailability`. -/
structure SavedBlock where
  id : String
  start : Int
  stop : Int
deriving DecidableEq, Repr

/-- A user document: `_id`, external identity id, availability windows. -/
structure User where
  id : String
  clerkId : String
  availability : List AvailabilitySlot
deriving DecidableEq, Repr

/-- Environment of the authenticated availability actions: `userId` is the
`auth()` result, `users` the store's user documents, `clerkProfile` the
`currentUser()` result (only its presence matters here), `uuid i` the
`crypto.randomUUID()` value for the i-th block, `newUserId` the id the store
would assign to a created user. -/
structure AuthEnv where
  userId : Option String
  users : List User
  clerkProfile : Option String
  uuid : Nat → String
  newUserId : String

/-- `getOrCreateUser` of src/lib/actions/availability.ts: find the user by
external identity id, else create one with empty availability (the lookup
query is modelled from the spec §6, "fetch host by slug/external-identity-id",
since src/sanity/queries/users is not among the sources). -/
def getOrCreateUser (env : AuthEnv) (clerkId : String) :
    Except String (String × List User) :=
  match env.users.find? (fun u => u.clerkId == clerkId) with
  | some u => Except.ok (u.id, env.users)
  | none =>
    match env.clerkProfile with
    | none => Except.error "User not found in Clerk"
    | some _ =>
      Except.ok (env.newUserId,
        env.users ++ [{ id := env.newUserId, clerkId := clerkId, availability := [] }])

/-- Modelled from the spec: the document-store write
`patch(user._id).set({availability}).commit()` (§6 `patch(id).set(fields).commit()`
sets the named field, here replacing the user's whole availability array). -/
def setAvailability (users : List User) (uid : String)
    (av : List AvailabilitySlot) : List User :=
  users.map fun u => if u.id == uid then { u with availability := av } else u

/-- The Sanity-format blocks built by `saveAvailability`
(`blocks.map` with fresh `_key`s). -/
def sanityBlocksOf (env : AuthEnv) (blocks : List TimeBlock) : List AvailabilitySlot :=
  blocks.enum.map fun p =>
    { key := env.uuid p.1, startDateTime := p.2.start, endDateTime := p.2.stop }

/-- `saveAvailability` of src/lib/actions/availability.ts: replaces the
authenticated user's entire availability with the given blocks and returns
them with their new keys.  The result pairs the store's user documents after
the write with the returned blocks. -/
def saveAvailability (env : AuthEnv) (blocks : List TimeBlock) :
    Except String (List User × List SavedBlock) :=
  match env.userId with
  | none => Except.error "Unauthorized"
  | some userId =>
    match getOrCreateUser env userId with
    | Except.error e => Except.error e
    | Except.ok (uid, users1) =>
      let sanityBlocks := sanityBlocksOf env blocks
      Except.ok (setAvailability users1 uid sanityBlocks,
        sanityBlocks.map fun b => { id := b.key, start := b.startDateTime, stop := b.endDateTime })

/-! ## Loop invariants -/

theorem computeSlotsLoop_now (bookings : List BookingSlot) (busyTimes : List BusyTime)
    (slotEnd dur now : Int) :
    ∀ (fuel : Nat) (c : Int) (s : TimeSlot),
      s ∈ computeSlotsLoop bookings busyTimes slotEnd dur now fuel c → now ≤ s.start := by
  intro fuel
  induction fuel with
  | zero => intro c s h; simp [computeSlotsLoop] at h
  | succ n ih =>
    intro c s h
    simp only [computeSlotsLoop] at h
    split at h
    · split at h
      · exact ih _ _ h
      · split at h
        · rcases List.mem_cons.mp h with heq | htail
          · subst heq
            simpa using le_of_not_lt (by assumption)
          · exact ih _ _ htail
        · exact ih _ _ h
    · simp at h

theorem computeSlotsLoop_noconflict (bookings : List BookingSlot) (busyTimes : List BusyTime)
    (slotEnd dur now : Int) :
    ∀ (fuel : Nat) (c : Int) (s : TimeSlot),
      s ∈ computeSlotsLoop bookings busyTimes slotEnd dur now fuel c →
      bookings.any (bookingConflict s.start s.stop) = false ∧
      busyTimes.any (busyConflict s.start s.stop) = false := by
  intro fuel
  induction fuel with
  | zero => intro c s h; simp [computeSlotsLoop] at h
  | succ n ih =>
    intro c s h
    simp only [computeSlotsLoop] at h
    split at h
    · split at h
      · exact ih _ _ h
      · split at h
        · rcases List.mem_cons.mp h with heq | htail
          · subst heq
            rename_i hfree
            simp only [Bool.and_eq_true, Bool.not_eq_eq_eq_not, Bool.not_true] at hfree
            exact ⟨by simpa using hfree.1, by simpa using hfree.2⟩
          · exact ih _ _ htail
        · exact ih _ _ h
    · simp at h

theorem computeSlotsLoop_align (bookings : List BookingSlot) (busyTimes : List BusyTime)
    (slotEnd dur now : Int) :
    ∀ (fuel : Nat) (c : Int) (s : TimeSlot),
      s ∈ computeSlotsLoop bookings busyTimes slotEnd dur now fuel c →
      s.stop = addMinutes s.start dur ∧ s.stop ≤ slotEnd ∧
      ∃ k : Nat, s.start = c + k * (dur * msPerMinute) := by
  intro fuel
  induction fuel with
  | zero => intro c s h; simp [computeSlotsLoop] at h
  | succ n ih =>
    intro c s h
    simp only [computeSlotsLoop] at h
    split at h
    · rename_i hcond
      have step : ∀ s' : TimeSlot,
          (s'.stop = addMinutes s'.start dur ∧ s'.stop ≤ slotEnd ∧
            ∃ k : Nat, s'.start = addMinutes c dur + k * (dur * msPerMinute)) →
          s'.stop = addMinutes s'.start dur ∧ s'.stop ≤ slotEnd ∧
          ∃ k : Nat, s'.start = c + k * (dur * msPerMinute) := by
        rintro s' ⟨h1, h2, k, hk⟩
        refine ⟨h1, h2, k + 1, ?_⟩
        rw [hk]
        simp [addMinutes]
        ring
      split at h
      · exact step s (ih _ _ h)
      · split at h
        · rcases List.mem_cons.mp h with heq | htail
          · subst heq
            exact ⟨rfl, hcond, 0, by simp⟩
          · exact step s (ih _ _ htail)
        · exact step s (ih _ _ h)
    · simp at h

theorem computeSlotsLoop_lower (bookings : List BookingSlot) (busyTimes : List BusyTime)
    (slotEnd dur now : Int) (hdur : 0 < dur) :
    ∀ (fuel : Nat) (c : Int) (s : TimeSlot),
      s ∈ computeSlotsLoop bookings busyTimes slotEnd dur now fuel c → c ≤ s.start := by
  intro fuel c s h
  obtain ⟨-, -, k, hk⟩ := computeSlotsLoop_align bookings busyTimes slotEnd dur now fuel c s h
  rw [hk]
  have : (0 : Int) ≤ k * (dur * msPerMinute) := by
    have hD : (0 : Int) < dur * msPerMinute := by
      have : (0 : Int) < msPerMinute := by norm_num [msPerMinute]
      exact mul_pos hdur this
    positivity
  linarith

theorem computeSlotsLoop_chain (bookings : List BookingSlot) (busyTimes : List BusyTime)
    (slotEnd dur now : Int) (hdur : 0 < dur) :
    ∀ (fuel : Nat) (c : Int),
      ((computeSlotsLoop bookings busyTimes slotEnd dur now fuel c).map TimeSlot.start).Chain'
        (fun a b => a < b) := by
  have hD : (0 : Int) < dur * msPerMinute := by
    have : (0 : Int) < msPerMinute := by norm_num [msPerMinute]
    exact mul_pos hdur this
  intro fuel
  induction fuel with
  | zero => intro c; simp [computeSlotsLoop]
  | succ n ih =>
    intro c
    simp only [computeSlotsLoop]
    split
    · split
      · exact ih _
      · split
        · rw [List.map_cons]
          refine List.chain'_cons'.mpr ⟨?_, ih _⟩
          intro y hy
          rw [List.head?_map, Option.mem_def, Option.map_eq_some'] at hy
          obtain ⟨s, hs, rfl⟩ := hy
          have := computeSlotsLoop_lower bookings busyTimes slotEnd dur now hdur n
            (addMinutes c dur) s (List.mem_of_mem_head? (Option.mem_def.mpr hs))
          simp only [addMinutes] at this
          linarith
        · exact ih _
    · simp

theorem generateSlotsLoop_align (slotEnd dur : Int) :
    ∀ (fuel : Nat) (c : Int) (s : TimeSlot),
      s ∈ generateSlotsLoop slotEnd dur fuel c →
      s.stop = addMinutes s.start dur ∧ s.stop ≤ slotEnd ∧
      ∃ k : Nat, s.start = c + k * (dur * msPerMinute) := by
  intro fuel
  induction fuel with
  | zero => intro c s h; simp [generateSlotsLoop] at h
  | succ n ih =>
    intro c s h
    simp only [generateSlotsLoop] at h
    split at h
    · rename_i hcond
      rcases List.mem_cons.mp h with heq | htail
      · subst heq
        exact ⟨rfl, hcond, 0, by simp⟩
      · obtain ⟨h1, h2, k, hk⟩ := ih _ _ htail
        refine ⟨h1, h2, k + 1, ?_⟩
        rw [hk]
        simp [addMinutes]
        ring
    · simp at h

theorem generateSlotsLoop_lower (slotEnd dur : Int) (hdur : 0 < dur) :
    ∀ (fuel : Nat) (c : Int) (s : TimeSlot),
      s ∈ generateSlotsLoop slotEnd dur fuel c → c ≤ s.start := by
  intro fuel c s h
  obtain ⟨-, -, k, hk⟩ := generateSlotsLoop_align slotEnd dur fuel c s h
  rw [hk]
  have hD : (0 : Int) < dur * msPerMinute := by
    have : (0 : Int) < msPerMinute := by norm_num [msPerMinute]
    exact mul_pos hdur this
  have : (0 : Int) ≤ k * (dur * msPerMinute) := by positivity
  linarith

theorem generateSlotsLoop_chain (slotEnd dur : Int) (hdur : 0 < dur) :
    ∀ (fuel : Nat) (c : Int),
      ((generateSlotsLoop slotEnd dur fuel c).map TimeSlot.start).Chain'
        (fun a b => a < b) := by
  have hD : (0 : Int) < dur * msPerMinute := by
    have : (0 : Int) < msPerMinute := by norm_num [msPerMinute]
    exact mul_pos hdur this
  intro fuel
  induction fuel with
  | zero => intro c; simp [generateSlotsLoop]
  | succ n ih =>
    intro c
    simp only [generateSlotsLoop]
    split
    · rw [List.map_cons]
      refine List.chain'_cons'.mpr ⟨?_, ih _⟩
      intro y hy
      rw [List.head?_map, Option.mem_def, Option.map_eq_some'] at hy
      obtain ⟨s, hs, rfl⟩ := hy
      have := generateSlotsLoop_lower slotEnd dur hdur n
        (addMinutes c dur) s (List.mem_of_mem_head? (Option.mem_def.mpr hs))
      simp only [addMinutes] at this
      linarith
    · simp

/-! ## C10: the date-range probe ignores the current time-of-day -/

/-- Availability covering only the first hour of day 0. -/
def availElapsed : List AvailabilitySlot := [⟨"w", 0, 3600000⟩]

/-- C10 (confirmed): `computeAvailableDates` skips only whole calendar days
before today and its per-day probe applies no past-slot check, so with
availability covering only the elapsed part of today (one hour of day 0),
no conflicts, and `now` two hours into day 0 (past the last candidate
slot's start), today is still among the returned dates even though
`computeAvailableSlots` returns no slot for today. -/
theorem dateProbeIgnoresTimeOfDay :
    computeAvailableDates availElapsed [] 0 0 30 [] 7200000 = [0] ∧
    formatDay (startOfDay 7200000) = 0 ∧
    computeAvailableSlots availElapsed [] 0 30 [] 7200000 = [] := by
  refine ⟨by decide, by decide, by decide⟩

/-! ## C1: past-slot exclusion -/

/-- Host state for the C1 counterexample: one availability window covering
the first hour of day 0, no bookings, no busy intervals; the ambient clock
stands at the end of that hour. -/
def envPast : Env :=
  { hosts := [{ id := "u1", slug := "h", name := "H", email := "h@example.com",
                availability := [⟨"w", 0, 3600000⟩], connectedAccounts := [] }]
    bookings := []
    attendeeStatus := fun _ _ => none
    busyFetch := Except.ok []
    quotaExceeded := fun _ => false
    meetingTypeLookup := fun _ _ => none
    calendarCreate := Except.ok (none, none)
    newId := "b1"
    now := 3600000 }

/-- C1 (counterexample): `getAvailableSlots` applies no past-slot filter, so
with the current instant at the end of the window it still returns both
slots, the first of which starts before `now`. -/
theorem getAvailableSlotsReturnsPastSlot :
    getAvailableSlots envPast "h" 0 30 =
      Except.ok [⟨0, 1800000⟩, ⟨1800000, 3600000⟩] ∧
    (([⟨0, 1800000⟩, ⟨1800000, 3600000⟩] : List TimeSlot).any
      fun s => decide (s.start < envPast.now)) = true := by
  refine ⟨rfl, by decide⟩

/-- C1 (amended): `computeAvailableSlots` never returns a slot whose start
is before the `now` captured at the start of the computation;
`getAvailableSlots` performs no such filtering (see the counterexample). -/
theorem computeAvailableSlotsNoPastSlot (availability : List AvailabilitySlot)
    (bookings : List BookingSlot) (date dur : Int) (busyTimes : List BusyTime)
    (now : Int) (s : TimeSlot)
    (hs : s ∈ computeAvailableSlots availability bookings date dur busyTimes now) :
    ¬ s.start < now := by
  simp only [computeAvailableSlots, List.mem_flatMap] at hs
  obtain ⟨w, hw, hmem⟩ := hs
  exact not_lt.mpr (computeSlotsLoop_now _ _ _ _ _ _ _ _ hmem)

/-- C1 (witness): the amended theorem applied to a concrete state where the
window starts exactly at `now`. -/
theorem computeAvailableSlotsNoPastSlotApplied :
    (⟨0, 1800000⟩ : TimeSlot) ∈ computeAvailableSlots availElapsed [] 0 30 [] 0 ∧
    ¬ (0 : Int) < (0 : Int) :=
  ⟨by decide, computeAvailableSlotsNoPastSlot availElapsed [] 0 30 [] 0 ⟨0, 1800000⟩ (by decide)⟩

/-! ## C2: busy-interval fetch failure -/

/-- Host state for the C2 counterexample: an availability window on the
queried day, and a busy-interval fetch that fails. -/
def envBusyDown : Env :=
  { hosts := [{ id := "u1", slug := "h", name := "H", email := "h@example.com",
                availability := [⟨"w", 0, 3600000⟩], connectedAccounts := [] }]
    bookings := []
    attendeeStatus := fun _ _ => none
    busyFetch := Except.error "calendar down"
    quotaExceeded := fun _ => false
    meetingTypeLookup := fun _ _ => none
    calendarCreate := Except.ok (none, none)
    newId := "b1"
    now := 0 }

/-- C2 (counterexample): `getAvailableSlots` has no try/catch around the
busy-interval fetch, so the failure propagates to the caller instead of
degrading to an empty busy set. -/
theorem getAvailableSlotsPropagatesBusyFailure :
    getAvailableSlots envBusyDown "h" 0 30 = Except.error "calendar down" := rfl

/-- C2 (amended): a busy-interval fetch failure degrades to an empty busy
set only in `getAvailableDates`, which then returns the same successful
result as with no busy intervals; `getAvailableSlots` propagates the
failure (see the counterexample). -/
theorem getAvailableDatesBusyFailureDegrades (env : Env) (hostSlug : String)
    (startDate endDate dur : Int) (err : String)
    (hb : env.busyFetch = Except.error err) :
    getAvailableDates env hostSlug startDate endDate dur =
      getAvailableDates { env with busyFetch := Except.ok [] } hostSlug startDate endDate dur ∧
    ∃ dates, getAvailableDates env hostSlug startDate endDate dur = Except.ok dates := by
  unfold getAvailableDates
  cases hfind : hostBySlug env.hosts hostSlug <;> simp [hb]

/-- C2 (witness): the amended theorem applied to the concrete failing-fetch
state. -/
theorem getAvailableDatesBusyFailureDegradesApplied :
    getAvailableDates envBusyDown "h" 0 0 30 =
      getAvailableDates { envBusyDown with busyFetch := Except.ok [] } "h" 0 0 30 ∧
    ∃ dates, getAvailableDates envBusyDown "h" 0 0 30 = Except.ok dates :=
  getAvailableDatesBusyFailureDegrades envBusyDown "h" 0 0 30 "calendar down" rfl

/-! ## C3: missing host -/

/-- A store with no hosts at all. -/
def envNoHost : Env :=
  { hosts := []
    bookings := []
    attendeeStatus := fun _ _ => none
    busyFetch := Except.ok []
    quotaExceeded := fun _ => false
    meetingTypeLookup := fun _ _ => none
    calendarCreate := Except.ok (none, none)
    newId := "b1"
    now := 0 }

/-- C3 (counterexample): when the host lookup yields no host,
`getAvailableDates` returns a successful empty result instead of aborting
with a host-not-found error. -/
theorem getAvailableDatesMissingHostNoError :
    getAvailableDates envNoHost "ghost" 0 0 30 = Except.ok [] := rfl

/-- C3 (amended): when the host lookup by slug yields no host,
`getAvailableSlots` aborts with the host-not-found error while
`getAvailableDates` returns an empty date list. -/
theorem missingHostBehavior (env : Env) (slug : String)
    (date startDate endDate dur : Int)
    (h : hostBySlug env.hosts slug = none) :
    getAvailableSlots env slug date dur = Except.error "Host not found" ∧
    getAvailableDates env slug startDate endDate dur = Except.ok [] := by
  unfold getAvailableSlots getAvailableDates
  rw [h]
  exact ⟨rfl, rfl⟩

/-- C3 (witness): the amended theorem applied to the empty store. -/
theorem missingHostBehaviorApplied :
    getAvailableSlots envNoHost "ghost" 0 30 = Except.error "Host not found" ∧
    getAvailableDates envNoHost "ghost" 0 0 30 = Except.ok [] :=
  missingHostBehavior envNoHost "ghost" 0 0 0 30 rfl

/-! ## C4: commit-time re-validation -/

/-- Whether the attendee-status scan can resolve booking `b` as
guest-declined for `host`: a default account carrying both tokens exists,
the booking has a Google event id and a guest email, and the status lookup
returns "declined". -/
def bookingDeclined (env : Env) (host : Host) (b : Booking) : Bool :=
  match defaultAccount host with
  | some acct =>
    acct.hasTokens &&
      match b.googleEventId with
      | some eid =>
        b.guestEmail != "" && (env.attendeeStatus eid b.guestEmail == some "declined")
      | none => false
  | none => false

theorem mem_declinedIdsFor (env : Env) (bs : List Booking) (x : String)
    (hx : x ∈ declinedIdsFor env bs) :
    ∃ b ∈ bs, b.id = x ∧
      (match b.googleEventId with
       | some eid =>
         b.guestEmail != "" && (env.attendeeStatus eid b.guestEmail == some "declined")
       | none => false) = true := by
  simp only [declinedIdsFor, List.mem_filterMap, List.mem_filter] at hx
  obtain ⟨b, ⟨hb, hcond⟩, hmap⟩ := hx
  refine ⟨b, hb, ?_⟩
  cases hg : b.googleEventId with
  | none => rw [hg] at hmap; simp at hmap
  | some eid =>
    rw [hg] at hmap
    rw [hg] at hcond
    simp only [Option.isSome_some, Bool.true_and] at hcond
    split at hmap
    · rename_i eid2 hdec
      injection hdec with hdec
      subst hdec
      by_cases hdec2 : (env.attendeeStatus eid b.guestEmail == some "declined") = true
      · rw [if_pos hdec2] at hmap
        injection hmap with hmap
        exact ⟨hmap, by simp [hcond, hdec2]⟩
      · rw [if_neg hdec2] at hmap
        simp at hmap
    · simp at hmap

theorem mem_declinedBookingIds (env : Env) (host : Host) (bs : List Booking)
    (hsub : ∀ b ∈ bs, b ∈ env.bookings)
    (hids : (env.bookings.map Booking.id).Nodup)
    (b : Booking) (hb : b ∈ env.bookings)
    (hmem : b.id ∈ declinedBookingIds env host bs) :
    bookingDeclined env host b = true := by
  unfold declinedBookingIds at hmem
  unfold bookingDeclined
  cases hacct : defaultAccount host with
  | none => rw [hacct] at hmem; simp at hmem
  | some acct =>
    simp only [hacct] at hmem ⊢
    by_cases htok : acct.hasTokens
    · simp only [htok, if_true] at hmem
      obtain ⟨b', hb', hid, hcond⟩ := mem_declinedIdsFor env bs b.id hmem
      have hbeq : b' = b :=
        List.inj_on_of_nodup_map hids (hsub b' hb') hb hid
      rw [hbeq] at hcond
      simp [htok, hcond]
    · simp only [htok, if_false] at hmem
      simp at hmem

/-- C4 (confirmed): once the commit protocol reaches its re-validation step
(host found, quota not exceeded), a proposed window that half-open-overlaps
an existing booking of the host that the attendee scan cannot resolve as
declined makes `createBooking` fail with the slot-unavailable error; an
error result performs no store write, so the booking set is unchanged. -/
theorem createBookingSlotUnavailable (env : Env) (data : BookingData)
    (host : Host) (b : Booking)
    (hhost : hostBySlug env.hosts data.hostSlug = some host)
    (hquota : env.quotaExceeded data.hostSlug = false)
    (hb : b ∈ env.bookings)
    (href : b.hostRef = host.id)
    (hover : data.startTime < b.endTime ∧ data.endTime > b.startTime)
    (hnotdecl : bookingDeclined env host b = false)
    (hids : (env.bookings.map Booking.id).Nodup) :
    createBooking env data = Except.error "This time slot is no longer available" := by
  have hmemrange : b ∈ bookingsInRange env.bookings host.id data.startTime data.endTime := by
    simp [bookingsInRange, List.mem_filter, hb, href, hover.1, hover.2]
  have hconf : bookingDocConflict data.startTime data.endTime b = true := by
    simp [bookingDocConflict, hover.1, hover.2]
  have hnotmem : b.id ∉ declinedBookingIds env host
      ((bookingsInRange env.bookings host.id data.startTime data.endTime).filter
        fun b' => bookingDocConflict data.startTime data.endTime b') := by
    intro hconmem
    have hdecl := mem_declinedBookingIds env host _
      (fun b' hb' => List.mem_of_mem_filter (List.mem_of_mem_filter hb'))
      hids b hb hconmem
    simp [hdecl] at hnotdecl
  have hcheck : checkSlotAvailable env host data.startTime data.endTime = false := by
    unfold checkSlotAvailable
    simp only [Bool.not_eq_false']
    refine List.any_eq_true.mpr ⟨b, hmemrange, ?_⟩
    rw [if_neg (by simpa using hnotmem)]
    exact hconf
  simp [createBooking, hhost, hquota, hcheck]

/-- The host on file for the C4 witness. -/
def hostBookedC4 : Host :=
  { id := "u1", slug := "h", name := "H", email := "h@example.com",
    availability := [⟨"w", 0, 3600000⟩], connectedAccounts := [] }

/-- The conflicting confirmed booking for the C4 witness. -/
def bookingC4 : Booking :=
  { id := "bk1", hostRef := "u1", meetingTypeRef := none, startTime := 0,
    endTime := 1800000, guestName := "G", guestEmail := "g@example.com",
    googleEventId := none, meetLink := none, status := "confirmed" }

/-- Store state for the C4 witness: the host plus one confirmed booking
occupying the first half hour of day 0. -/
def envBooked : Env :=
  { hosts := [hostBookedC4]
    bookings := [bookingC4]
    attendeeStatus := fun _ _ => none
    busyFetch := Except.ok []
    quotaExceeded := fun _ => false
    meetingTypeLookup := fun _ _ => none
    calendarCreate := Except.ok (none, none)
    newId := "b2"
    now := 0 }

/-- C4 (witness): the theorem applied to a concrete commit request whose
window coincides with the existing booking. -/
theorem createBookingSlotUnavailableApplied :
    createBooking envBooked
      { hostSlug := "h", meetingTypeSlug := none, startTime := 0, endTime := 1800000,
        guestName := "G2", guestEmail := "g2@example.com", notes := none } =
      Except.error "This time slot is no longer available" :=
  createBookingSlotUnavailable envBooked _ hostBookedC4 bookingC4
    rfl rfl (by decide) rfl (by decide) (by decide) (by decide)

/-! ## C5: conflict correctness -/

/-- The overlap predicate as §4.1 of the spec words it:
`a.start < b.end && a.end > b.start` (half-open semantics). -/
def overlaps (aStart aEnd bStart bEnd : Int) : Bool :=
  decide (aStart < bEnd) && decide (aEnd > bStart)

/-- C5 (confirmed): no slot returned by the available-slots computation
half-open-overlaps a considered (non-declined) booking or a busy interval,
for the server action (first two conjuncts) and for the library
`computeAvailableSlots` (third conjunct); and a booking that merely touches
a window endpoint (ending at its start or starting at its end) never
registers as a conflict (fourth conjunct). -/
theorem returnedSlotsDoNotOverlap (env : Env) (hostSlug : String) (date dur : Int)
    (slots : List TimeSlot) (host : Host) (busyTimes : List BusyTime)
    (hhost : hostBySlug env.hosts hostSlug = some host)
    (hbusy : env.busyFetch = Except.ok busyTimes)
    (hok : getAvailableSlots env hostSlug date dur = Except.ok slots)
    (s : TimeSlot) (hs : s ∈ slots) :
    (∀ b ∈ bookingsInRange env.bookings host.id (startOfDay date) (endOfDay date),
      (declinedBookingIds env host
        (bookingsInRange env.bookings host.id (startOfDay date) (endOfDay date))).contains b.id
          = false →
      overlaps s.start s.stop b.startTime b.endTime = false) ∧
    (∀ bt ∈ busyTimes, overlaps s.start s.stop bt.start bt.stop = false) ∧
    (∀ (availability : List AvailabilitySlot) (bookings : List BookingSlot)
        (date2 dur2 now2 : Int) (busy2 : List BusyTime) (s2 : TimeSlot),
      s2 ∈ computeAvailableSlots availability bookings date2 dur2 busy2 now2 →
      (∀ b ∈ bookings, overlaps s2.start s2.stop b.startTime b.endTime = false) ∧
      (∀ bt ∈ busy2, overlaps s2.start s2.stop bt.start bt.stop = false)) ∧
    (∀ (a e : Int) (b : Booking), b.endTime = a ∨ b.startTime = e →
      overlaps a e b.startTime b.endTime = false) := by
  simp only [getAvailableSlots, hhost, hbusy, Except.ok.injEq] at hok
  refine ⟨?_, ?_, ?_, ?_⟩
  · intro b hbr hcont
    split at hok
    · simp only [Except.ok.injEq] at hok
      subst hok; simp at hs
    · simp only [Except.ok.injEq] at hok
      subst hok
      obtain ⟨-, hpred⟩ := List.mem_filter.mp hs
      simp only [Bool.and_eq_true, Bool.not_eq_eq_eq_not, Bool.not_true] at hpred
      have hactive : b ∈ (bookingsInRange env.bookings host.id (startOfDay date)
          (endOfDay date)).filter fun b' =>
            !((declinedBookingIds env host (bookingsInRange env.bookings host.id
              (startOfDay date) (endOfDay date))).contains b'.id) :=
        List.mem_filter.mpr ⟨hbr, by rw [hcont]; rfl⟩
      have := List.any_eq_false.mp hpred.1 b hactive
      simpa [overlaps, bookingDocConflict] using this
  · intro bt hbt
    split at hok
    · simp only [Except.ok.injEq] at hok
      subst hok; simp at hs
    · simp only [Except.ok.injEq] at hok
      subst hok
      obtain ⟨-, hpred⟩ := List.mem_filter.mp hs
      simp only [Bool.and_eq_true, Bool.not_eq_eq_eq_not, Bool.not_true] at hpred
      have := List.any_eq_false.mp hpred.2 bt hbt
      simpa [overlaps, busyConflict] using this
  · intro availability bookings date2 dur2 now2 busy2 s2 hs2
    simp only [computeAvailableSlots, List.mem_flatMap] at hs2
    obtain ⟨w, hw, hmem⟩ := hs2
    obtain ⟨hbk, hbz⟩ := computeSlotsLoop_noconflict _ _ _ _ _ _ _ _ hmem
    constructor
    · intro b hb
      have := List.any_eq_false.mp hbk b hb
      simpa [overlaps, bookingConflict] using this
    · intro bt hbt
      have := List.any_eq_false.mp hbz bt hbt
      simpa [overlaps, busyConflict] using this
  · rintro a e b (rfl | rfl) <;> simp [overlaps]

/-- Host state for the C5 witness: one availability window for the first
hour of day 0 and one booking occupying its second half hour, so the first
generated slot exactly touches the booking's start. -/
def envTouching : Env :=
  { hosts := [{ id := "u1", slug := "h", name := "H", email := "h@example.com",
                availability := [⟨"w", 0, 3600000⟩], connectedAccounts := [] }]
    bookings := [{ id := "bk0", hostRef := "u1", meetingTypeRef := none,
                   startTime := 1800000, endTime := 3600000, guestName := "G",
                   guestEmail := "g@example.com", googleEventId := none,
                   meetLink := none, status := "confirmed" }]
    attendeeStatus := fun _ _ => none
    busyFetch := Except.ok []
    quotaExceeded := fun _ => false
    meetingTypeLookup := fun _ _ => none
    calendarCreate := Except.ok (none, none)
    newId := "b1"
    now := 0 }

/-- C5 (witness): the theorem applied to the touching-booking state; the
returned slot does not overlap the considered booking that starts exactly
at the slot's end. -/
theorem returnedSlotsDoNotOverlapApplied :
    overlaps 0 1800000 1800000 3600000 = false :=
  (returnedSlotsDoNotOverlap envTouching "h" 0 30
      [⟨0, 1800000⟩]
      { id := "u1", slug := "h", name := "H", email := "h@example.com",
        availability := [⟨"w", 0, 3600000⟩], connectedAccounts := [] }
      [] rfl rfl rfl ⟨0, 1800000⟩ (by decide)).1
    { id := "bk0", hostRef := "u1", meetingTypeRef := none,
      startTime := 1800000, endTime := 3600000, guestName := "G",
      guestEmail := "g@example.com", googleEventId := none,
      meetLink := none, status := "confirmed" }
    (by decide) (by decide)

/-! ## C6: chronological order -/

/-- Host state for the C6 counterexample: two availability windows on day 0
stored afternoon-first (14:00-15:00 before 09:00-10:00). -/
def envTwoWindows : Env :=
  { hosts := [{ id := "u1", slug := "h", name := "H", email := "h@example.com",
                availability := [⟨"a", 50400000, 54000000⟩, ⟨"b", 32400000, 36000000⟩],
                connectedAccounts := [] }]
    bookings := []
    attendeeStatus := fun _ _ => none
    busyFetch := Except.ok []
    quotaExceeded := fun _ => false
    meetingTypeLookup := fun _ _ => none
    calendarCreate := Except.ok (none, none)
    newId := "b1"
    now := 0 }

/-- The slot list `getAvailableSlots` returns for the two-window state:
afternoon slots first, then morning slots. -/
def slotsTwoWindows : List TimeSlot :=
  [⟨50400000, 52200000⟩, ⟨52200000, 54000000⟩, ⟨32400000, 34200000⟩, ⟨34200000, 36000000⟩]

/-- C6 (counterexample): with the host's windows stored out of order, the
returned slot list is not chronological — the second and third slots
violate `first.start ≤ second.start`. -/
theorem getAvailableSlotsNotChronological :
    getAvailableSlots envTwoWindows "h" 0 30 = Except.ok slotsTwoWindows ∧
    slotsTwoWindows.map TimeSlot.start = [50400000, 52200000, 32400000, 34200000] ∧
    ¬ (slotsTwoWindows.map TimeSlot.start).Chain' (fun a b => a ≤ b) := by
  refine ⟨rfl, by decide, ?_⟩
  intro h
  simp [slotsTwoWindows, List.chain'_cons] at h

/-- The run of slots `computeAvailableSlots` cuts from one relevant window
(the body of its per-window loop, with the window clamped to the day). -/
def libWindowRun (bookings : List BookingSlot) (busyTimes : List BusyTime)
    (date dur now : Int) (w : AvailabilitySlot) : List TimeSlot :=
  computeSlotsLoop bookings busyTimes (clampEnd (endOfDay date) w.endDateTime) dur now
    (slotFuel (clampStart (startOfDay date) w.startDateTime)
      (clampEnd (endOfDay date) w.endDateTime) dur)
    (clampStart (startOfDay date) w.startDateTime)

/-- The unfiltered candidate run `getAvailableSlots` generates from one
relevant window (step 6 of the server action). -/
def actionWindowRun (date dur : Int) (w : AvailabilitySlot) : List TimeSlot :=
  generateSlotsLoop (clampEnd (endOfDay date) w.endDateTime) dur
    (slotFuel (clampStart (startOfDay date) w.startDateTime)
      (clampEnd (endOfDay date) w.endDateTime) dur)
    (clampStart (startOfDay date) w.startDateTime)

/-- The conflict filter `getAvailableSlots` applies in step 7, over the
non-declined fetched bookings and the fetched busy times. -/
def slotFreeForHost (env : Env) (host : Host) (busyTimes : List BusyTime)
    (dayStart dayEnd : Int) (slot : TimeSlot) : Bool :=
  let existingBookings := bookingsInRange env.bookings host.id dayStart dayEnd
  let declined := declinedBookingIds env host existingBookings
  let activeBookings := existingBookings.filter fun b => !(declined.contains b.id)
  !(activeBookings.any (bookingDocConflict slot.start slot.stop)) &&
  !(busyTimes.any (busyConflict slot.start slot.stop))

/-- C6 (amended): the returned slot list is the concatenation, in
stored-window order, of one run of slots per window relevant to the date,
and each run is chronological (strictly increasing starts) — shown for the
library `computeAvailableSlots` (first and second conjuncts) and for the
server action (fourth and fifth conjuncts); consequently, whenever the
availability relevant to the queried date filters down to a single window —
however many windows are stored — the whole returned list is chronological
(third and sixth conjuncts).  With several relevant windows stored out of
chronological order the whole list need not be sorted (see the
counterexample). -/
theorem slotsFollowStoredWindowOrder
    (availability : List AvailabilitySlot) (bookings : List BookingSlot)
    (busyTimes : List BusyTime) (date dur now : Int) (hdur : 0 < dur)
    (env : Env) (hostSlug : String) (host : Host) (slots : List TimeSlot)
    (busy2 : List BusyTime)
    (hhost : hostBySlug env.hosts hostSlug = some host)
    (hbusy : env.busyFetch = Except.ok busy2)
    (hok : getAvailableSlots env hostSlug date dur = Except.ok slots) :
    computeAvailableSlots availability bookings date dur busyTimes now =
      (availability.filter (availabilityOnDay (startOfDay date) (endOfDay date))).flatMap
        (libWindowRun bookings busyTimes date dur now) ∧
    (∀ w : AvailabilitySlot,
      ((libWindowRun bookings busyTimes date dur now w).map TimeSlot.start).Chain'
        (fun a b => a < b)) ∧
    (∀ w : AvailabilitySlot,
      availability.filter (availabilityOnDay (startOfDay date) (endOfDay date)) = [w] →
      ((computeAvailableSlots availability bookings date dur busyTimes now).map
        TimeSlot.start).Chain' (fun a b => a < b)) ∧
    slots = (host.availability.filter
        (availabilityOnDay (startOfDay date) (endOfDay date))).flatMap
      (fun w => (actionWindowRun date dur w).filter
        (slotFreeForHost env host busy2 (startOfDay date) (endOfDay date))) ∧
    (∀ w : AvailabilitySlot,
      (((actionWindowRun date dur w).filter
        (slotFreeForHost env host busy2 (startOfDay date) (endOfDay date))).map
          TimeSlot.start).Chain' (fun a b => a < b)) ∧
    (∀ w : AvailabilitySlot,
      host.availability.filter (availabilityOnDay (startOfDay date) (endOfDay date)) = [w] →
      (slots.map TimeSlot.start).Chain' (fun a b => a < b)) := by
  have hslots : slots = (host.availability.filter
      (availabilityOnDay (startOfDay date) (endOfDay date))).flatMap
    (fun w => (actionWindowRun date dur w).filter
      (slotFreeForHost env host busy2 (startOfDay date) (endOfDay date))) := by
    simp only [getAvailableSlots, hhost, hbusy, Except.ok.injEq] at hok
    split at hok
    · rename_i hlen
      simp only [Except.ok.injEq] at hok
      subst hok
      have hnil : host.availability.filter
          (availabilityOnDay (startOfDay date) (endOfDay date)) = [] := by
        simpa using hlen
      rw [hnil]
      rfl
    · simp only [Except.ok.injEq] at hok
      subst hok
      rw [List.filter_flatMap]
      rfl
  have hrun : ∀ w : AvailabilitySlot,
      (((actionWindowRun date dur w).filter
        (slotFreeForHost env host busy2 (startOfDay date) (endOfDay date))).map
          TimeSlot.start).Chain' (fun a b => a < b) := by
    intro w
    refine List.chain'_iff_pairwise.mpr ?_
    refine List.Pairwise.sublist ((List.filter_sublist _).map TimeSlot.start) ?_
    exact List.chain'_iff_pairwise.mp (generateSlotsLoop_chain _ dur hdur _ _)
  refine ⟨rfl, ?_, ?_, hslots, hrun, ?_⟩
  · intro w
    exact computeSlotsLoop_chain bookings busyTimes _ dur now hdur _ _
  · intro w hw
    rw [show computeAvailableSlots availability bookings date dur busyTimes now =
      (availability.filter (availabilityOnDay (startOfDay date) (endOfDay date))).flatMap
        (libWindowRun bookings busyTimes date dur now) from rfl, hw]
    simp only [List.flatMap_cons, List.flatMap_nil, List.append_nil]
    exact computeSlotsLoop_chain bookings busyTimes _ dur now hdur _ _
  · intro w hw
    rw [hslots, hw]
    simp only [List.flatMap_cons, List.flatMap_nil, List.append_nil]
    exact hrun w

/-- Host state for the C6 witness: two stored availability windows — one on
day 1, one on day 0 — so exactly one is relevant to the queried day 0. -/
def envOneRelevantWindow : Env :=
  { hosts := [{ id := "u1", slug := "h", name := "H", email := "h@example.com",
                availability := [⟨"a", 118800000, 122400000⟩, ⟨"w", 0, 3600000⟩],
                connectedAccounts := [] }]
    bookings := []
    attendeeStatus := fun _ _ => none
    busyFetch := Except.ok []
    quotaExceeded := fun _ => false
    meetingTypeLookup := fun _ _ => none
    calendarCreate := Except.ok (none, none)
    newId := "b1"
    now := 0 }

/-- C6 (witness): the amended theorem applied to a host with two stored
windows of which exactly one is relevant to the queried date; the whole
returned slot list is chronological. -/
theorem slotsFollowStoredWindowOrderApplied :
    (([⟨0, 1800000⟩, ⟨1800000, 3600000⟩] : List TimeSlot).map TimeSlot.start).Chain'
      (fun a b => a < b) :=
  (slotsFollowStoredWindowOrder [] [] [] 0 30 0 (by decide)
      envOneRelevantWindow "h"
      { id := "u1", slug := "h", name := "H", email := "h@example.com",
        availability := [⟨"a", 118800000, 122400000⟩, ⟨"w", 0, 3600000⟩],
        connectedAccounts := [] }
      [⟨0, 1800000⟩, ⟨1800000, 3600000⟩] [] rfl rfl rfl).2.2.2.2.2
    ⟨"w", 0, 3600000⟩ (by decide)

/-! ## C7: slot alignment -/

/-- C7 (confirmed): every candidate slot cut from a clamped window is
exactly `slotDurationMinutes` wide, starts at the clamped window start plus
an integer multiple of the duration, and ends no later than the clamped
window end — for the server action's candidate generator (first conjunct)
and for every slot `computeAvailableSlots` returns, relative to the window
it was cut from (second conjunct). -/
theorem slotAlignment :
    (∀ (slotEnd dur : Int) (fuel : Nat) (c : Int) (s : TimeSlot),
      s ∈ generateSlotsLoop slotEnd dur fuel c →
      s.stop - s.start = dur * msPerMinute ∧
      (∃ k : Nat, s.start = c + k * (dur * msPerMinute)) ∧ s.stop ≤ slotEnd) ∧
    (∀ (availability : List AvailabilitySlot) (bookings : List BookingSlot)
        (date dur : Int) (busyTimes : List BusyTime) (now : Int) (s : TimeSlot),
      s ∈ computeAvailableSlots availability bookings date dur busyTimes now →
      ∃ w ∈ availability.filter (availabilityOnDay (startOfDay date) (endOfDay date)),
        s.stop - s.start = dur * msPerMinute ∧
        (∃ k : Nat, s.start =
          clampStart (startOfDay date) w.startDateTime + k * (dur * msPerMinute)) ∧
        s.stop ≤ clampEnd (endOfDay date) w.endDateTime) := by
  constructor
  · intro slotEnd dur fuel c s hs
    obtain ⟨h1, h2, h3⟩ := generateSlotsLoop_align slotEnd dur fuel c s hs
    refine ⟨?_, h3, h2⟩
    rw [h1]; unfold addMinutes; ring
  · intro availability bookings date dur busyTimes now s hs
    simp only [computeAvailableSlots, List.mem_flatMap] at hs
    obtain ⟨w, hw, hmem⟩ := hs
    obtain ⟨h1, h2, h3⟩ := computeSlotsLoop_align bookings busyTimes _ dur now _ _ s hmem
    refine ⟨w, hw, ?_, h3, h2⟩
    rw [h1]; unfold addMinutes; ring

/-- C7 (witness): the first conjunct applied to a one-hour window starting
at instant 0 with 30-minute slots. -/
theorem slotAlignmentApplied :
    (⟨0, 1800000⟩ : TimeSlot) ∈ generateSlotsLoop 3600000 30 3 0 ∧
    ((1800000 : Int) - 0 = 30 * msPerMinute ∧
      (∃ k : Nat, (0 : Int) = 0 + k * (30 * msPerMinute)) ∧ (1800000 : Int) ≤ 3600000) :=
  ⟨by decide, slotAlignment.1 3600000 30 3 0 ⟨0, 1800000⟩ (by decide)⟩

/-! ## C8: calendar-event failure does not abort booking creation -/

/-- C8 (confirmed): with the host found, the quota clear, the slot
re-validated available, a default account with tokens present, and the
calendar event insert failing, `createBooking` still persists the booking
with status confirmed and no external event id or meeting link, returning
the new id; the calendar failure is not surfaced. -/
theorem createBookingCalendarFailureStillPersists (env : Env) (data : BookingData)
    (host : Host) (acct : ConnectedAccount) (err : String)
    (hhost : hostBySlug env.hosts data.hostSlug = some host)
    (hquota : env.quotaExceeded data.hostSlug = false)
    (hcheck : checkSlotAvailable env host data.startTime data.endTime = true)
    (hacct : defaultAccount host = some acct)
    (htok : acct.hasTokens = true)
    (hcal : env.calendarCreate = Except.error err) :
    createBooking env data =
      Except.ok (env.newId, env.bookings ++ [persistedBooking env host data none none]) ∧
    (persistedBooking env host data none none).status = "confirmed" ∧
    (persistedBooking env host data none none).googleEventId = none ∧
    (persistedBooking env host data none none).meetLink = none := by
  refine ⟨?_, rfl, rfl, rfl⟩
  simp [createBooking, hhost, hquota, hcheck, hacct, htok, hcal]

/-- The host on file for the C8 witness: a default connected account with
tokens is present. -/
def hostCalC8 : Host :=
  { id := "u1", slug := "h", name := "H", email := "h@example.com",
    availability := [⟨"w", 0, 3600000⟩], connectedAccounts := [⟨true, true⟩] }

/-- The commit request of the C8 witness. -/
def dataC8 : BookingData :=
  { hostSlug := "h", meetingTypeSlug := none, startTime := 0, endTime := 1800000,
    guestName := "G", guestEmail := "g@example.com", notes := none }

/-- Store state for the C8 witness: no conflicting bookings and a calendar
insert that fails. -/
def envCalendarDown : Env :=
  { hosts := [hostCalC8]
    bookings := []
    attendeeStatus := fun _ _ => none
    busyFetch := Except.ok []
    quotaExceeded := fun _ => false
    meetingTypeLookup := fun _ _ => none
    calendarCreate := Except.error "insert failed"
    newId := "b1"
    now := 0 }

/-- C8 (witness): the theorem applied to the failing-calendar state. -/
theorem createBookingCalendarFailureStillPersistsApplied :
    createBooking envCalendarDown dataC8 =
      Except.ok (envCalendarDown.newId,
        envCalendarDown.bookings ++ [persistedBooking envCalendarDown hostCalC8 dataC8 none none]) ∧
    (persistedBooking envCalendarDown hostCalC8 dataC8 none none).status = "confirmed" ∧
    (persistedBooking envCalendarDown hostCalC8 dataC8 none none).googleEventId = none ∧
    (persistedBooking envCalendarDown hostCalC8 dataC8 none none).meetLink = none :=
  createBookingCalendarFailureStillPersists envCalendarDown dataC8 hostCalC8 ⟨true, true⟩
    "insert failed" rfl rfl (by decide) rfl rfl rfl

/-! ## C9: availability replacement round-trip -/

/-- C9 (confirmed): for an authenticated user already on file,
`saveAvailability` succeeds, the stored availability of that user after the
write is exactly the converted input blocks (wholesale replacement, nothing
merged), and the returned array has the same length as the input with each
element's start and end instants equal to the corresponding input block's. -/
theorem saveAvailabilityReplacesWholesale (env : AuthEnv) (blocks : List TimeBlock)
    (uid : String) (u : User)
    (hauth : env.userId = some uid)
    (hfind : env.users.find? (fun v => v.clerkId == uid) = some u) :
    saveAvailability env blocks =
      Except.ok (setAvailability env.users u.id (sanityBlocksOf env blocks),
        (sanityBlocksOf env blocks).map fun b =>
          { id := b.key, start := b.startDateTime, stop := b.endDateTime }) ∧
    (∀ v ∈ setAvailability env.users u.id (sanityBlocksOf env blocks),
      v.id = u.id → v.availability = sanityBlocksOf env blocks) ∧
    ((sanityBlocksOf env blocks).map fun b =>
      ({ id := b.key, start := b.startDateTime, stop := b.endDateTime } : SavedBlock)).length
        = blocks.length ∧
    (((sanityBlocksOf env blocks).map fun b =>
      ({ id := b.key, start := b.startDateTime, stop := b.endDateTime } : SavedBlock)).map
        SavedBlock.start = blocks.map TimeBlock.start) ∧
    (((sanityBlocksOf env blocks).map fun b =>
      ({ id := b.key, start := b.startDateTime, stop := b.endDateTime } : SavedBlock)).map
        SavedBlock.stop = blocks.map TimeBlock.stop) := by
  refine ⟨?_, ?_, ?_, ?_, ?_⟩
  · simp [saveAvailability, getOrCreateUser, hauth, hfind]
  · intro v hv hid
    simp only [setAvailability, List.mem_map] at hv
    obtain ⟨v0, hv0, hfv⟩ := hv
    by_cases h0 : (v0.id == u.id) = true
    · rw [if_pos h0] at hfv
      subst hfv
      rfl
    · rw [if_neg h0] at hfv
      subst hfv
      exact absurd (by simp [hid]) h0
  · simp [sanityBlocksOf]
  · simp only [sanityBlocksOf, List.map_map]
    have : (SavedBlock.start ∘ (fun b : AvailabilitySlot =>
        ({ id := b.key, start := b.startDateTime, stop := b.endDateTime } : SavedBlock)) ∘
        fun p : Nat × TimeBlock =>
          ({ key := env.uuid p.1, startDateTime := p.2.start,
             endDateTime := p.2.stop } : AvailabilitySlot)) =
        (TimeBlock.start ∘ Prod.snd) := rfl
    rw [this, ← List.map_map, List.enum_map_snd]
  · simp only [sanityBlocksOf, List.map_map]
    have : (SavedBlock.stop ∘ (fun b : AvailabilitySlot =>
        ({ id := b.key, start := b.startDateTime, stop := b.endDateTime } : SavedBlock)) ∘
        fun p : Nat × TimeBlock =>
          ({ key := env.uuid p.1, startDateTime := p.2.start,
             endDateTime := p.2.stop } : AvailabilitySlot)) =
        (TimeBlock.stop ∘ Prod.snd) := rfl
    rw [this, ← List.map_map, List.enum_map_snd]

/-- Store and identity state for the C9 witness: one authenticated user on
file. -/
def envSave : AuthEnv :=
  { userId := some "clerk1"
    users := [{ id := "u1", clerkId := "clerk1", availability := [⟨"old", 5, 6⟩] }]
    clerkProfile := some "U"
    uuid := fun i => toString i
    newUserId := "u2" }

/-- C9 (witness): the theorem applied to saving a single block, replacing a
previously stored window. -/
theorem saveAvailabilityReplacesWholesaleApplied :
    saveAvailability envSave [⟨100, 200⟩] =
      Except.ok (setAvailability envSave.users "u1" (sanityBlocksOf envSave [⟨100, 200⟩]),
        (sanityBlocksOf envSave [⟨100, 200⟩]).map fun b =>
          { id := b.key, start := b.startDateTime, stop := b.endDateTime }) ∧
    (∀ v ∈ setAvailability envSave.users "u1" (sanityBlocksOf envSave [⟨100, 200⟩]),
      v.id = "u1" → v.availability = sanityBlocksOf envSave [⟨100, 200⟩]) ∧
    ((sanityBlocksOf envSave [⟨100, 200⟩]).map fun b =>
      ({ id := b.key, start := b.startDateTime, stop := b.endDateTime } : SavedBlock)).length
        = ([⟨100, 200⟩] : List TimeBlock).length ∧
    (((sanityBlocksOf envSave [⟨100, 200⟩]).map fun b =>
      ({ id := b.key, start := b.startDateTime, stop := b.endDateTime } : SavedBlock)).map
        SavedBlock.start = ([⟨100, 200⟩] : List TimeBlock).map TimeBlock.start) ∧
    (((sanityBlocksOf envSave [⟨100, 200⟩]).map fun b =>
      ({ id := b.key, start := b.startDateTime, stop := b.endDateTime } : SavedBlock)).map
        SavedBlock.stop = ([⟨100, 200⟩] : List TimeBlock).map TimeBlock.stop) :=
  saveAvailabilityReplacesWholesale envSave [⟨100, 200⟩] "clerk1"
    { id := "u1", clerkId := "clerk1", availability := [⟨"old", 5, 6⟩] } rfl rfl

end Scheduling
